import Mathlib

/-!
# pod-runner: manifest preparation and lifecycle dispatch

A shallow embedding of `main.go` of `trusch/pod-runner`.

* Go strings are modelled by `String`; the only byte-level manipulation in the
  program (the image-ID text built from the output of `rkt fetch`) works on
  `List UInt8`.
* The manifest is mutated in place by the Go code; here every stage returns the
  updated manifest.
* Everything outside the program (flag parsing, the file system, YAML and JSON
  coding, `types.Hash.UnmarshalJSON`, `os.Getwd` and the child processes) is a
  field of `Env`; the theorems hold for every `Env`.
* The types of `github.com/appc/spec/schema` are not part of `main.go`; the
  model keeps what `main.go` uses of them: `RuntimeApp.App` and
  `RuntimeImage.Name` are pointers (`Option` here, a nil dereference is a
  panic), `types.Hash` is a pair of strings that is empty when both are.
* `path/filepath` is modelled after its Unix implementation; the process never
  changes its working directory, so `os.Getwd` is one fixed result.
* Side effects are recorded as a list of `Event`s in the order they happen;
  writes to the log and to standard output are not recorded.
* A Go `error` return is `Result.error`, `log.Fatal` is `Result.fatal` (exit
  status 1) and a runtime panic is `Result.crash` (exit status 2).
-/

deriving instance DecidableEq for Except

namespace PodRunner

/-! ## Data model (the part of `schema.PodManifest` that `main.go` touches) -/

/-- Fields of a library structure that `main.go` neither reads nor writes. -/
abbrev Fields := List (String × String)

/-- `types.Hash`: a hash type and a value. -/
structure Hash where
  typ : String
  Val : String
  deriving DecidableEq, Repr

/-- `Hash.Empty`: equality with the zero value `Hash{}`. -/
def Hash.Empty (h : Hash) : Bool :=
  decide (h = { typ := "", Val := "" })

/-- `types.Label`. -/
structure Label where
  Name : String
  Value : String
  deriving DecidableEq, Repr

/-- `schema.RuntimeImage`; `Name` is a pointer in Go and may be nil. -/
structure RuntimeImage where
  Name : Option String
  ID : Hash
  Labels : List Label
  deriving DecidableEq, Repr

/-- `types.App`: the execution section of an app entry. -/
structure App where
  User : String
  Group : String
  other : Fields
  deriving DecidableEq, Repr

/-- `schema.RuntimeApp`; `App` is a pointer in Go and may be nil. -/
structure RuntimeApp where
  Name : String
  Image : RuntimeImage
  App : Option App
  other : Fields
  deriving DecidableEq, Repr

/-- `types.Volume`. -/
structure Volume where
  Name : String
  Source : String
  other : Fields
  deriving DecidableEq, Repr

/-- `schema.PodManifest`. -/
structure PodManifest where
  Apps : List RuntimeApp
  Volumes : List Volume
  other : Fields
  deriving DecidableEq, Repr

/-- `CommandType` (lines 20-29). -/
inductive CommandType
  | Compile
  | Run
  | Start
  | Stop
  | Status
  | Logs
  deriving DecidableEq, Repr

/-- The process-wide variables of lines 31-39. -/
structure Config where
  templatePath : String
  basePath : String
  podName : String
  slice : String
  outfile : String
  command : CommandType
  additionalFlags : List String
  deriving DecidableEq, Repr

/-- The five string variables bound to the flag set (lines 43-52). -/
structure Flags where
  templatePath : String
  basePath : String
  podName : String
  slice : String
  outfile : String
  deriving DecidableEq, Repr

/-! ## Effects and the environment -/

/-- Observable actions of the program. -/
inductive Event
  | parseFlags (args : List String)
  | openFile (path : String)
  | createFile (path : String)
  | tempFile (dir : String) (pattern : String)
  | exec (name : String) (args : List String) (stdin : List UInt8)
  deriving DecidableEq, Repr

/-- What `cmd.Run()` gives back: the captured standard output and the error. -/
structure CmdResult where
  stdout : List UInt8
  err : Option String
  deriving DecidableEq, Repr

/-- Result of `flagSet.Parse` on a flag set created with `flag.ExitOnError`. -/
inductive FlagResult
  | parsed (f : Flags)
  | exited (code : Nat)
  | failed (msg : String)
  deriving DecidableEq, Repr

/-- Result of a stage: normal return, returned `error`, `log.Fatal`, or panic. -/
inductive Result (α : Type)
  | ok (a : α)
  | error (msg : String)
  | fatal (msg : String)
  | crash (msg : String)
  deriving DecidableEq, Repr

/-- How the process ends. -/
inductive Exit
  | success
  | fatal (msg : String)
  | exited (code : Nat)
  | crash (msg : String)
  deriving DecidableEq, Repr

/-- Exit status of the process. -/
def Exit.code : Exit → Nat
  | .success => 0
  | .fatal _ => 1
  | .exited c => c
  | .crash _ => 2

/-- The world outside the program. `run` may depend on everything done so far. -/
structure Env where
  parseFlags : List String → FlagResult
  readTemplate : String → Except String PodManifest
  run : List Event → String → List String → List UInt8 → CmdResult
  unmarshalHash : List UInt8 → Except String Hash
  getwd : Except String String
  encode : Bool → PodManifest → Except String (List UInt8)
  create : String → Option String
  write : String → List UInt8 → Option String
  tempFile : String → String → Except String String

/-! ## `path/filepath` on Unix -/

/-- `filepath.IsAbs`: the path starts with a slash. -/
def IsAbs (path : String) : Bool :=
  decide (path.data.head? = some '/')

/-- The backtracking of `Clean` at a `..` element, started at `w = out.w - 1`:
`for out.w > dotdot && !os.IsPathSeparator(out.index(out.w)) { out.w-- }`. -/
def backtrack (out : List Char) (dotdot : Nat) : Nat → Nat
  | 0 => 0
  | w + 1 =>
    if dotdot < w + 1 ∧ out[w + 1]? ≠ some '/' then backtrack out dotdot w else w + 1

/-- The main loop of `filepath.Clean`; `rest` is `path[r:]`, `out` the buffer
written so far. Every iteration consumes at least one byte of `rest`. -/
def cleanLoop (rooted : Bool) : Nat → List Char → List Char → Nat → List Char
  | 0, _, out, _ => out
  | _ + 1, [], out, _ => out
  | fuel + 1, c :: rest, out, dotdot =>
    if c = '/' then
      cleanLoop rooted fuel rest out dotdot
    else if c = '.' ∧ (rest = [] ∨ rest.head? = some '/') then
      cleanLoop rooted fuel rest out dotdot
    else if c = '.' ∧ rest.head? = some '.' ∧
        (rest.tail = [] ∨ rest.tail.head? = some '/') then
      if dotdot < out.length then
        cleanLoop rooted fuel rest.tail
          (out.take (backtrack out dotdot (out.length - 1))) dotdot
      else if rooted = false then
        let out1 := (if 0 < out.length then out ++ ['/'] else out) ++ ['.', '.']
        cleanLoop rooted fuel rest.tail out1 out1.length
      else
        cleanLoop rooted fuel rest.tail out dotdot
    else
      let out1 :=
        if (rooted = true ∧ out.length ≠ 1) ∨ (rooted = false ∧ out.length ≠ 0)
        then out ++ ['/'] else out
      cleanLoop rooted fuel ((c :: rest).dropWhile (fun x => x != '/'))
        (out1 ++ (c :: rest).takeWhile (fun x => x != '/')) dotdot

/-- `filepath.Clean`. -/
def Clean (path : String) : String :=
  if path = "" then "."
  else
    let p := path.data
    let out :=
      if p.head? = some '/' then cleanLoop true p.length p.tail ['/'] 1
      else cleanLoop false p.length p [] 0
    if out = [] then "." else String.mk out

/-- `filepath.Join`: the elements from the first non-empty one on, joined by
slashes and cleaned; the empty string when all are empty. -/
def Join : List String → String
  | [] => ""
  | e :: rest => if e ≠ "" then Clean (String.intercalate "/" (e :: rest)) else Join rest

/-- `filepath.Abs`, given the result of `os.Getwd`. -/
def Abs (getwd : Except String String) (path : String) : Except String String :=
  if IsAbs path then .ok (Clean path)
  else
    match getwd with
    | .error e => .error e
    | .ok wd => .ok (Join [wd, path])

/-! ## The manifest pipeline (lines 99-226) -/

/-- `readTemplate` (lines 99-115): open, read and decode the template. -/
def readTemplate (env : Env) (cfg : Config) (tr : List Event) :
    List Event × Except String PodManifest :=
  (tr ++ [Event.openFile cfg.templatePath], env.readTemplate cfg.templatePath)

/-- The label loop of lines 125-131, started with `schema` and `version` as given. -/
def scanLabels : List Label → String × String → String × String
  | [], acc => acc
  | label :: rest, (schema, version) =>
    if label.Name = "schema" then scanLabels rest (label.Value, version)
    else if label.Name = "version" then scanLabels rest (schema, label.Value)
    else scanLabels rest (schema, version)

/-- Lines 132-137: the arguments handed to `sudo` for an app with image name `name`. -/
def fetchArgs (name : String) (labels : List Label) : List String :=
  let sv := scanLabels labels ("", "")
  let pullName := sv.1 ++ name ++ ":" ++ sv.2
  let args := ["rkt", "fetch", pullName]
  if sv.1 = "docker://" then args ++ ["--insecure-options=image"] else args

/-- Lines 146-148: `js := []byte{'"'}; js = append(js, output...); js[len(js)-1] = '"'`.
`none` stands for an index out of range. -/
def quoteOutput (output : List UInt8) : Option (List UInt8) :=
  let js : List UInt8 := [34] ++ output
  let i : Int := (js.length : Int) - 1
  if 0 ≤ i ∧ i < (js.length : Int) then some (js.set i.toNat 34) else none

/-- The loop of `fetchImages` (lines 118-155) over the apps not yet visited. -/
def fetchImagesLoop (env : Env) :
    List Event → List RuntimeApp → List RuntimeApp × List Event × Result Unit
  | tr, [] => ([], tr, .ok ())
  | tr, app :: rest =>
    if app.Image.ID.Empty then
      match app.Image.Name with
      | none => (app :: rest, tr, .crash "nil pointer dereference")
      | some name =>
        let args := fetchArgs name app.Image.Labels
        let r := env.run tr "sudo" args []
        let tr1 := tr ++ [Event.exec "sudo" args []]
        match r.err with
        | some e => (app :: rest, tr1, .error e)
        | none =>
          match quoteOutput r.stdout with
          | none => (app :: rest, tr1, .crash "index out of range")
          | some js =>
            match env.unmarshalHash js with
            | .error e => (app :: rest, tr1, .error e)
            | .ok h =>
              let app1 := { app with Image := { app.Image with ID := h } }
              let res := fetchImagesLoop env tr1 rest
              (app1 :: res.1, res.2.1, res.2.2)
    else
      let res := fetchImagesLoop env tr rest
      (app :: res.1, res.2.1, res.2.2)

/-- `fetchImages` (lines 117-157). -/
def fetchImages (env : Env) (tr : List Event) (manifest : PodManifest) :
    PodManifest × List Event × Result Unit :=
  let res := fetchImagesLoop env tr manifest.Apps
  ({ manifest with Apps := res.1 }, res.2.1, res.2.2)

/-- The loop of `makeVolumeSourcesAbsolute` (lines 160-168). -/
def makeVolumeSourcesAbsoluteLoop (env : Env) (basePath : String) :
    List Volume → List Volume × Result Unit
  | [] => ([], .ok ())
  | volume :: rest =>
    if IsAbs volume.Source = false then
      match Abs env.getwd (Join [basePath, volume.Source]) with
      | .error e => (volume :: rest, .error e)
      | .ok path =>
        let res := makeVolumeSourcesAbsoluteLoop env basePath rest
        ({ volume with Source := path } :: res.1, res.2)
    else
      let res := makeVolumeSourcesAbsoluteLoop env basePath rest
      (volume :: res.1, res.2)

/-- `makeVolumeSourcesAbsolute` (lines 159-170). -/
def makeVolumeSourcesAbsolute (env : Env) (basePath : String) (manifest : PodManifest) :
    PodManifest × Result Unit :=
  let res := makeVolumeSourcesAbsoluteLoop env basePath manifest.Volumes
  ({ manifest with Volumes := res.1 }, res.2)

/-- The loop of `makeUserAndGroupValid` (lines 173-180). Reading `app.App.User`
through a nil `App` pointer is a runtime panic. -/
def makeUserAndGroupValidLoop : List RuntimeApp → List RuntimeApp × Result Unit
  | [] => ([], .ok ())
  | app :: rest =>
    match app.App with
    | none => (app :: rest, .crash "nil pointer dereference")
    | some a =>
      let a1 := if a.User = "" then { a with User := "0" } else a
      let a2 := if a1.Group = "" then { a1 with Group := "0" } else a1
      let res := makeUserAndGroupValidLoop rest
      ({ app with App := some a2 } :: res.1, res.2)

/-- `makeUserAndGroupValid` (lines 172-182). -/
def makeUserAndGroupValid (manifest : PodManifest) : PodManifest × Result Unit :=
  let res := makeUserAndGroupValidLoop manifest.Apps
  ({ manifest with Apps := res.1 }, res.2)

/-- `prepareManifest` (lines 211-226). The error returned by
`makeUserAndGroupValid` is dropped at line 224; a panic is not. -/
def prepareManifest (env : Env) (cfg : Config) (tr : List Event) :
    List Event × Result PodManifest :=
  match readTemplate env cfg tr with
  | (tr1, .error e) => (tr1, .error e)
  | (tr1, .ok manifest) =>
    match fetchImages env tr1 manifest with
    | (_, tr2, .error e) => (tr2, .error e)
    | (_, tr2, .fatal e) => (tr2, .fatal e)
    | (_, tr2, .crash e) => (tr2, .crash e)
    | (m1, tr2, .ok _) =>
      match makeVolumeSourcesAbsolute env cfg.basePath m1 with
      | (_, .error e) => (tr2, .error e)
      | (_, .fatal e) => (tr2, .fatal e)
      | (_, .crash e) => (tr2, .crash e)
      | (m2, .ok _) =>
        match makeUserAndGroupValid m2 with
        | (_, .crash e) => (tr2, .crash e)
        | (_, .fatal e) => (tr2, .fatal e)
        | (m3, _) => (tr2, .ok m3)

/-! ## Start-up (lines 41-97) -/

/-- What the `switch args[1]` of lines 57-80 selects. -/
inductive Selected
  | help
  | command (c : CommandType)
  | unknown
  deriving DecidableEq, Repr

/-- The `switch args[1]` of lines 57-80. -/
def selectCommand (arg : String) : Selected :=
  if arg = "-h" then .help
  else if arg = "--help" then .help
  else if arg = "compile" then .command .Compile
  else if arg = "run" then .command .Run
  else if arg = "start" then .command .Start
  else if arg = "stop" then .command .Stop
  else if arg = "status" then .command .Status
  else if arg = "logs" then .command .Logs
  else .unknown

/-- The search of lines 81-87: index of the first `"--"` in `args`. -/
def findDashDash : List String → Option Nat
  | [] => none
  | val :: rest => if val = "--" then some 0 else (findDashDash rest).map (fun i => i + 1)

/-- The message of lines 55 and 78. -/
def usageError : String := "specify one of compile, run, start, stop, logs or status"

/-- How `init` ends: the configuration, `log.Fatal`, `os.Exit(code)` or a panic. -/
inductive InitResult
  | ok (cfg : Config)
  | fatal (msg : String)
  | exited (code : Nat)
  | crash (msg : String)
  deriving DecidableEq, Repr

/-- `init` (lines 41-97) on the argument vector `os.Args`. Registering the
flags (lines 42-52) has no effect outside the flag set. -/
def init (env : Env) (args : List String) : List Event × InitResult :=
  if args.length = 1 then ([], .fatal usageError)
  else
    match args[1]? with
    | none => ([], .crash "index out of range")
    | some a1 =>
      match selectCommand a1 with
      | .help => ([], .exited 0)
      | .unknown => ([], .fatal usageError)
      | .command c =>
        let split : List String × List String :=
          match findDashDash args with
          | some idx => (args.take idx, args.drop (idx + 1))
          | none => (args, [])
        if split.1.length < 2 then ([], .crash "slice bounds out of range")
        else
          let tr := [Event.parseFlags (split.1.drop 2)]
          match env.parseFlags (split.1.drop 2) with
          | .exited code => (tr, .exited code)
          | .failed msg => (tr, .fatal msg)
          | .parsed f =>
            if (c = .Start ∨ c = .Stop ∨ c = .Status ∨ c = .Logs) ∧ f.podName = "" then
              (tr, .fatal "you must specify --name when working with pods in background")
            else
              (tr, .ok
                { templatePath := f.templatePath, basePath := f.basePath,
                  podName := f.podName, slice := f.slice, outfile := f.outfile,
                  command := c, additionalFlags := split.2 })

/-! ## Lifecycle dispatch (lines 184-327) -/

/-- `runForeground` (lines 184-198). -/
def runForeground (env : Env) (cfg : Config) (tr : List Event) (manifest : PodManifest) :
    List Event × Result Unit :=
  match env.encode false manifest with
  | .error e => (tr, .error e)
  | .ok buff =>
    let args := ["rkt", "run", "--pod-manifest=/dev/stdin"] ++ cfg.additionalFlags
    let r := env.run tr "sudo" args buff
    let tr1 := tr ++ [Event.exec "sudo" args buff]
    match r.err with
    | some e => (tr1, .error e)
    | none => (tr1, .ok ())

/-- `writeManifest` (lines 200-209). -/
def writeManifest (env : Env) (cfg : Config) (tr : List Event) (manifest : PodManifest) :
    List Event × Result Unit :=
  let tr1 := tr ++ [Event.createFile cfg.outfile]
  match env.create cfg.outfile with
  | some e => (tr1, .error e)
  | none =>
    match env.encode true manifest with
    | .error e => (tr1, .error e)
    | .ok bs =>
      match env.write cfg.outfile bs with
      | some e => (tr1, .error e)
      | none => (tr1, .ok ())

/-- The script of line 250. -/
def stopScript (podName : String) : String :=
  "systemctl stop " ++ podName ++ ".service; systemctl reset-failed " ++ podName ++ ".service;"

/-- `stop` (lines 249-255): the error of `cmd.Run()` is returned as it is. -/
def stop (env : Env) (cfg : Config) (tr : List Event) : List Event × Result Unit :=
  let args := ["bash", "-c", stopScript cfg.podName]
  let r := env.run tr "sudo" args []
  let tr1 := tr ++ [Event.exec "sudo" args []]
  match r.err with
  | some e => (tr1, .error e)
  | none => (tr1, .ok ())

/-- `status` (lines 257-263). -/
def status (env : Env) (cfg : Config) (tr : List Event) : List Event × Result Unit :=
  let args := ["bash", "-c", "systemctl status " ++ cfg.podName ++ ".service;"]
  let r := env.run tr "sudo" args []
  let tr1 := tr ++ [Event.exec "sudo" args []]
  match r.err with
  | some e => (tr1, .error e)
  | none => (tr1, .ok ())

/-- `logs` (lines 265-271). -/
def logs (env : Env) (cfg : Config) (tr : List Event) : List Event × Result Unit :=
  let script := "journalctl -M $(systemctl status " ++ cfg.podName ++
    " --no-pager|grep -Eo \"rkt-[a-f0-9-]*\") " ++ String.intercalate " " cfg.additionalFlags
  let args := ["bash", "-c", script]
  let r := env.run tr "sudo" args []
  let tr1 := tr ++ [Event.exec "sudo" args []]
  match r.err with
  | some e => (tr1, .error e)
  | none => (tr1, .ok ())

/-- `start` (lines 228-247): the result of the leading `stop()` is discarded. -/
def start (env : Env) (cfg : Config) (tr : List Event) (manifest : PodManifest) :
    List Event × Result Unit :=
  let tr1 := (stop env cfg tr).1
  let tr2 := tr1 ++ [Event.tempFile "/tmp" "pod-manifest"]
  match env.tempFile "/tmp" "pod-manifest" with
  | .error e => (tr2, .fatal e)
  | .ok fname =>
    match env.encode false manifest with
    | .error e => (tr2, .error e)
    | .ok bs =>
      match env.write fname bs with
      | some e => (tr2, .error e)
      | none =>
        let args := ["systemd-run", "--unit", cfg.podName, "--slice", cfg.slice,
          "rkt", "run", "--pod-manifest=" ++ fname] ++ cfg.additionalFlags
        let r := env.run tr2 "sudo" args []
        let tr3 := tr2 ++ [Event.exec "sudo" args []]
        match r.err with
        | some e => (tr3, .error e)
        | none => (tr3, .ok ())

/-- The `if err != nil { log.Fatal(err) }` that follows every call in `main`. -/
def fatalOnError : Result Unit → Exit
  | .ok _ => .success
  | .error e => .fatal e
  | .fatal e => .fatal e
  | .crash e => .crash e

/-- `main` (lines 273-327). -/
def main (env : Env) (cfg : Config) (tr : List Event) : List Event × Exit :=
  match cfg.command with
  | .Compile =>
    match prepareManifest env cfg tr with
    | (tr1, .ok manifest) =>
      let res := writeManifest env cfg tr1 manifest
      (res.1, fatalOnError res.2)
    | (tr1, .error e) => (tr1, .fatal e)
    | (tr1, .fatal e) => (tr1, .fatal e)
    | (tr1, .crash e) => (tr1, .crash e)
  | .Run =>
    match prepareManifest env cfg tr with
    | (tr1, .ok manifest) =>
      let res := runForeground env cfg tr1 manifest
      (res.1, fatalOnError res.2)
    | (tr1, .error e) => (tr1, .fatal e)
    | (tr1, .fatal e) => (tr1, .fatal e)
    | (tr1, .crash e) => (tr1, .crash e)
  | .Start =>
    match prepareManifest env cfg tr with
    | (tr1, .ok manifest) =>
      let res := start env cfg tr1 manifest
      (res.1, fatalOnError res.2)
    | (tr1, .error e) => (tr1, .fatal e)
    | (tr1, .fatal e) => (tr1, .fatal e)
    | (tr1, .crash e) => (tr1, .crash e)
  | .Stop =>
    let res := stop env cfg tr
    (res.1, fatalOnError res.2)
  | .Status =>
    let res := status env cfg tr
    (res.1, fatalOnError res.2)
  | .Logs =>
    let res := logs env cfg tr
    (res.1, fatalOnError res.2)

/-- The whole process: `init`, then `main` when `init` returned. -/
def program (env : Env) (args : List String) : List Event × Exit :=
  match init env args with
  | (tr, .ok cfg) => main env cfg tr
  | (tr, .fatal msg) => (tr, .fatal msg)
  | (tr, .exited code) => (tr, .exited code)
  | (tr, .crash msg) => (tr, .crash msg)

/-! ## Specification-side definitions -/

/-- Relation between an app entry before and after default injection: the
user and the group are replaced by `"0"` when empty, nothing else changes. -/
def DefaultsInjected (a b : RuntimeApp) : Prop :=
  b.Name = a.Name ∧ b.Image = a.Image ∧ b.other = a.other ∧
  ∃ x y, a.App = some x ∧ b.App = some y ∧
    y.User = (if x.User = "" then "0" else x.User) ∧
    y.Group = (if x.Group = "" then "0" else x.Group) ∧
    y.other = x.other

/-- Relation between a volume before and after path normalisation with base
path `basePath`: an absolute source is kept, a relative source `p` becomes the
result of `Abs(Join(basePath, p))`, nothing else changes. -/
def VolumeNormalized (env : Env) (basePath : String) (v w : Volume) : Prop :=
  w.Name = v.Name ∧ w.other = v.other ∧
  (IsAbs v.Source = true → w.Source = v.Source) ∧
  (IsAbs v.Source = false → Abs env.getwd (Join [basePath, v.Source]) = .ok w.Source)

/-- The value of the last label named `n`, the empty string when there is none. -/
def labelValue (n : String) (labels : List Label) : String :=
  match labels.reverse.find? (fun l => decide (l.Name = n)) with
  | some l => l.Value
  | none => ""

/-- First occurrence of `"--"` in an argument vector is at position `i`. -/
def FirstDashDashAt (args : List String) (i : Nat) : Prop :=
  args[i]? = some "--" ∧ ∀ j, j < i → args[j]? ≠ some "--"

/-- The eight words accepted at position 1 of the argument vector. -/
def knownWords : List String :=
  ["compile", "run", "start", "stop", "status", "logs", "-h", "--help"]

/-- The six subcommands. -/
def subcommands : List String :=
  ["compile", "run", "start", "stop", "status", "logs"]

/-! ## Sample inputs -/

/-- The bytes of `sha512-abc` followed by a newline. -/
def sampleOutput : List UInt8 := [115, 104, 97, 53, 49, 50, 45, 97, 98, 99, 10]

/-- The bytes of `"sha512-abc"`, quotes included. -/
def sampleQuoted : List UInt8 := [34, 115, 104, 97, 53, 49, 50, 45, 97, 98, 99, 34]

/-- An app entry with no image ID, no user and a group. -/
def sampleApp : RuntimeApp :=
  { Name := "web",
    Image :=
      { Name := some "foo", ID := { typ := "", Val := "" },
        Labels := [{ Name := "schema", Value := "docker://" },
          { Name := "version", Value := "latest" }] },
    App := some { User := "", Group := "100", other := [("exec", "/bin/sh")] },
    other := [] }

/-- An app entry with an image ID and without execution section. -/
def bareApp : RuntimeApp :=
  { Name := "db",
    Image := { Name := some "bar", ID := { typ := "sha512", Val := "ff" }, Labels := [] },
    App := none,
    other := [] }

/-- An app entry with an image ID, a user and no group. -/
def resolvedApp : RuntimeApp :=
  { Name := "cache",
    Image := { Name := none, ID := { typ := "sha512", Val := "ee" }, Labels := [] },
    App := some { User := "7", Group := "", other := [] },
    other := [] }

/-- A template with one unresolved app, one resolved app and two volumes. -/
def sampleManifest : PodManifest :=
  { Apps := [sampleApp, resolvedApp],
    Volumes := [{ Name := "data", Source := "data", other := [] },
      { Name := "logs", Source := "/var/log", other := [] }],
    other := [("acKind", "PodManifest")] }

/-- A template whose only app has no execution section. -/
def bareManifest : PodManifest :=
  { Apps := [bareApp], Volumes := [], other := [] }

/-- A template in which every app has an image ID. -/
def resolvedManifest : PodManifest :=
  { Apps := [resolvedApp, bareApp], Volumes := [], other := [] }

/-- Flag values for base path `/srv` and pod name `web`. -/
def sampleFlags : Flags :=
  { templatePath := "pod-template.yaml", basePath := "/srv", podName := "web",
    slice := "", outfile := "/dev/stdout" }

/-- An environment in which everything succeeds; `rkt fetch` prints
`sha512-abc` and a newline. -/
def sampleEnv : Env :=
  { parseFlags := fun _ => .parsed sampleFlags,
    readTemplate := fun _ => .ok sampleManifest,
    run := fun _ _ _ _ => { stdout := sampleOutput, err := none },
    unmarshalHash := fun js =>
      if js = sampleQuoted then .ok { typ := "sha512", Val := "abc" }
      else .error "badly formatted hash string",
    getwd := .ok "/home/pod",
    encode := fun _ _ => .ok [123, 125, 10],
    create := fun _ => none,
    write := fun _ _ => none,
    tempFile := fun _ _ => .ok "/tmp/pod-manifest1" }

/-- As `sampleEnv`, but every child process ends with a non-zero exit status. -/
def failingEnv : Env :=
  { sampleEnv with run := fun _ _ _ _ => { stdout := [], err := some "exit status 1" } }

/-- Configuration for `compile` with base path `/srv`. -/
def sampleConfig : Config :=
  { templatePath := "pod-template.yaml", basePath := "/srv", podName := "",
    slice := "", outfile := "/dev/stdout", command := .Compile, additionalFlags := [] }

/-- What the pipeline makes of `sampleManifest` in `sampleEnv`. -/
def preparedManifest : PodManifest :=
  { Apps :=
      [{ sampleApp with
          Image := { sampleApp.Image with ID := { typ := "sha512", Val := "abc" } },
          App := some { User := "0", Group := "100", other := [("exec", "/bin/sh")] } },
        { resolvedApp with App := some { User := "7", Group := "0", other := [] } }],
    Volumes := [{ Name := "data", Source := "/srv/data", other := [] },
      { Name := "logs", Source := "/var/log", other := [] }],
    other := [("acKind", "PodManifest")] }

/-! ## Theorems -/

/-! ### Default injection -/

theorem makeUserAndGroupValidLoop_spec (apps : List RuntimeApp)
    (h : ∀ a ∈ apps, a.App ≠ none) :
    (makeUserAndGroupValidLoop apps).2 = .ok () ∧
      List.Forall₂ DefaultsInjected apps (makeUserAndGroupValidLoop apps).1 := by
  induction apps with
  | nil => exact ⟨rfl, List.Forall₂.nil⟩
  | cons app rest ih =>
    have hrest := ih (fun a ha => h a (List.mem_cons_of_mem _ ha))
    have happ := h app (List.mem_cons_self _ _)
    cases hA : app.App with
    | none => exact absurd hA happ
    | some x =>
      simp only [makeUserAndGroupValidLoop, hA]
      refine ⟨hrest.1, List.Forall₂.cons ?_ hrest.2⟩
      refine ⟨rfl, rfl, rfl, x, _, hA, rfl, ?_, ?_, ?_⟩
      · by_cases hu : x.User = "" <;> by_cases hg : x.Group = "" <;> simp [hu, hg]
      · by_cases hu : x.User = "" <;> by_cases hg : x.Group = "" <;> simp [hu, hg]
      · by_cases hu : x.User = "" <;> by_cases hg : x.Group = "" <;> simp [hu, hg]

/-- C1: when every app entry has an execution section, `makeUserAndGroupValid`
returns no error, the apps of the result correspond one to one and in order to
the apps of the input, each with its user replaced by `"0"` if it was empty and
its group replaced by `"0"` if it was empty and nothing else changed, and the
volumes and the remaining fields of the manifest are untouched. -/
theorem makeUserAndGroupValid_defaults (m : PodManifest)
    (h : ∀ a ∈ m.Apps, a.App ≠ none) :
    (makeUserAndGroupValid m).2 = .ok () ∧
      List.Forall₂ DefaultsInjected m.Apps (makeUserAndGroupValid m).1.Apps ∧
      (makeUserAndGroupValid m).1.Volumes = m.Volumes ∧
      (makeUserAndGroupValid m).1.other = m.other := by
  have hl := makeUserAndGroupValidLoop_spec m.Apps h
  exact ⟨hl.1, hl.2, rfl, rfl⟩

theorem makeUserAndGroupValid_defaults_witness :
    (∀ a ∈ sampleManifest.Apps, a.App ≠ none) ∧
      (makeUserAndGroupValid sampleManifest).2 = .ok () ∧
      List.Forall₂ DefaultsInjected sampleManifest.Apps
        (makeUserAndGroupValid sampleManifest).1.Apps ∧
      (makeUserAndGroupValid sampleManifest).1.Volumes = sampleManifest.Volumes ∧
      (makeUserAndGroupValid sampleManifest).1.other = sampleManifest.other :=
  ⟨by decide, makeUserAndGroupValid_defaults sampleManifest (by decide)⟩

/-- C6: on a manifest whose only app entry has no execution section,
`makeUserAndGroupValid` does not return: it panics on the nil pointer, and so
does `prepareManifest`, although the template was read, no image had to be
fetched and no volume had to be rewritten. -/
theorem makeUserAndGroupValid_nil_app_crash :
    makeUserAndGroupValid bareManifest =
        (bareManifest, Result.crash "nil pointer dereference") ∧
      prepareManifest { sampleEnv with readTemplate := fun _ => .ok bareManifest }
          { templatePath := "pod-template.yaml", basePath := "./", podName := "",
            slice := "", outfile := "/dev/stdout", command := .Compile,
            additionalFlags := [] } [] =
        ([Event.openFile "pod-template.yaml"], Result.crash "nil pointer dereference") := by
  constructor <;> rfl

/-! ### Image resolution -/

theorem fetchImagesLoop_resolved (env : Env) (tr : List Event) (apps : List RuntimeApp)
    (h : ∀ a ∈ apps, a.Image.ID.Empty = false) :
    fetchImagesLoop env tr apps = (apps, tr, .ok ()) := by
  induction apps with
  | nil => rfl
  | cons app rest ih =>
    have hrest := ih (fun a ha => h a (List.mem_cons_of_mem _ ha))
    have happ := h app (List.mem_cons_self _ _)
    simp [fetchImagesLoop, happ, hrest]

/-- C3: when every app has a non-empty image ID, `fetchImages` adds no event to
the trace (so no child process is started), returns no error and returns the
manifest it was given. -/
theorem fetchImages_all_resolved (env : Env) (tr : List Event) (m : PodManifest)
    (h : ∀ a ∈ m.Apps, a.Image.ID.Empty = false) :
    fetchImages env tr m = (m, tr, .ok ()) := by
  simp [fetchImages, fetchImagesLoop_resolved env tr m.Apps h]

theorem fetchImages_all_resolved_witness :
    (∀ a ∈ resolvedManifest.Apps, a.Image.ID.Empty = false) ∧
      fetchImages failingEnv [] resolvedManifest = (resolvedManifest, [], .ok ()) :=
  ⟨by decide, fetchImages_all_resolved failingEnv [] resolvedManifest (by decide)⟩

theorem set_length_concat {α : Type} (l : List α) (a b : α) :
    (l ++ [a]).set l.length b = l ++ [b] := by
  induction l with
  | nil => rfl
  | cons x xs ih => simp [ih]

theorem quoteOutput_concat (front : List UInt8) (c : UInt8) :
    quoteOutput (front ++ [c]) = some ([34] ++ front ++ [34]) := by
  have hlen : ((([34] : List UInt8) ++ (front ++ [c])).length : Int) - 1
      = ((front.length + 1 : Nat) : Int) := by
    simp
  have hset : (([34] : List UInt8) ++ (front ++ [c])).set (front.length + 1) 34
      = [34] ++ front ++ [34] := by
    have := set_length_concat ((34 : UInt8) :: front) c 34
    simp at this
    simp [this]
  have h1 : (0 : Int) ≤ ((front.length + 1 : Nat) : Int) := Int.ofNat_nonneg _
  have h2 : ((front.length + 1 : Nat) : Int)
      < ((([34] : List UInt8) ++ (front ++ [c])).length : Int) := by
    simp
  rw [quoteOutput]
  simp only [hlen]
  rw [if_pos ⟨h1, h2⟩, Int.toNat_ofNat, hset]

/-- C10: the text handed to `UnmarshalJSON` in `fetchImages`. For every
non-empty output of the fetch command it is a double quote, the output without
its last byte, and a double quote, whatever the last byte is; an identifier
followed by a newline gives the quoted identifier and an identifier followed by
any other byte loses that byte. For the empty output it is a single double
quote, and in no case is the index write out of range. When an app with empty
image ID and a name is visited and the fetch command succeeds, the outcome of
the iteration is decided by `UnmarshalJSON` on exactly that text. -/
theorem quoteOutput_text (env : Env) (tr : List Event) (app : RuntimeApp)
    (rest : List RuntimeApp) (name : String)
    (hid : app.Image.ID.Empty = true) (hname : app.Image.Name = some name)
    (hrun : (env.run tr "sudo" (fetchArgs name app.Image.Labels) []).err = none) :
    (∀ out : List UInt8, out ≠ [] → quoteOutput out = some ([34] ++ out.dropLast ++ [34])) ∧
      (∀ ident : List UInt8, quoteOutput (ident ++ [10]) = some ([34] ++ ident ++ [34])) ∧
      (∀ (ident : List UInt8) (c : UInt8),
        quoteOutput (ident ++ [c]) = some ([34] ++ ident ++ [34])) ∧
      quoteOutput [] = some [34] ∧
      (∀ out : List UInt8, quoteOutput out ≠ none) ∧
      fetchImagesLoop env tr (app :: rest) =
        (let out := (env.run tr "sudo" (fetchArgs name app.Image.Labels) []).stdout
         let tr1 := tr ++ [Event.exec "sudo" (fetchArgs name app.Image.Labels) []]
         let text : List UInt8 := if out = [] then [34] else [34] ++ out.dropLast ++ [34]
         match env.unmarshalHash text with
         | .error e => (app :: rest, tr1, .error e)
         | .ok h =>
           ({ app with Image := { app.Image with ID := h } } :: (fetchImagesLoop env tr1 rest).1,
             (fetchImagesLoop env tr1 rest).2.1, (fetchImagesLoop env tr1 rest).2.2)) := by
  have hne : ∀ out : List UInt8, out ≠ [] →
      quoteOutput out = some ([34] ++ out.dropLast ++ [34]) := by
    intro out ho
    have hsplit := List.dropLast_append_getLast ho
    have := quoteOutput_concat out.dropLast (out.getLast ho)
    rwa [hsplit] at this
  have hnil : quoteOutput [] = some [34] := by decide
  refine ⟨hne, fun ident => quoteOutput_concat ident 10,
    fun ident c => quoteOutput_concat ident c, hnil, ?_, ?_⟩
  · intro out
    by_cases ho : out = []
    · subst ho; rw [hnil]; simp
    · rw [hne out ho]; simp
  · by_cases ho : (env.run tr "sudo" (fetchArgs name app.Image.Labels) []).stdout = []
    · simp only [fetchImagesLoop, hid, hname, hrun, ho, hnil, if_true]
    · simp only [fetchImagesLoop, hid, hname, hrun, hne _ ho, ho, if_true, if_false]

theorem quoteOutput_text_witness :
    sampleApp.Image.ID.Empty = true ∧ sampleApp.Image.Name = some "foo" ∧
      (sampleEnv.run [] "sudo" (fetchArgs "foo" sampleApp.Image.Labels) []).err = none ∧
      quoteOutput sampleOutput = some sampleQuoted ∧
      (fetchImagesLoop sampleEnv [] [sampleApp]).2.2 = .ok () :=
  have h := quoteOutput_text sampleEnv [] sampleApp [] "foo" (by decide) (by decide)
    (by decide)
  ⟨by decide, by decide, by decide, (h.1 sampleOutput (by decide)).trans (by decide),
    (congrArg (fun r => r.2.2) h.2.2.2.2.2).trans (by decide)⟩

theorem scanLabels_spec (labels : List Label) (s v : String) :
    scanLabels labels (s, v) =
      ((match labels.reverse.find? (fun l => decide (l.Name = "schema")) with
        | some l => l.Value
        | none => s),
       (match labels.reverse.find? (fun l => decide (l.Name = "version")) with
        | some l => l.Value
        | none => v)) := by
  induction labels generalizing s v with
  | nil => rfl
  | cons label rest ih =>
    simp only [scanLabels, List.reverse_cons, List.find?_append]
    by_cases h1 : label.Name = "schema"
    · have h2 : ¬ label.Name = "version" := by rw [h1]; decide
      rw [if_pos h1, ih]
      cases rest.reverse.find? (fun l => decide (l.Name = "schema")) <;>
        cases rest.reverse.find? (fun l => decide (l.Name = "version")) <;>
        simp [h1, h2]
    · rw [if_neg h1]
      by_cases h2 : label.Name = "version"
      · rw [if_pos h2, ih]
        cases rest.reverse.find? (fun l => decide (l.Name = "schema")) <;>
          cases rest.reverse.find? (fun l => decide (l.Name = "version")) <;>
          simp [h1, h2]
      · rw [if_neg h2, ih]
        cases rest.reverse.find? (fun l => decide (l.Name = "schema")) <;>
          cases rest.reverse.find? (fun l => decide (l.Name = "version")) <;>
          simp [h1, h2]

theorem fetchArgs_spec (name : String) (labels : List Label) :
    fetchArgs name labels =
      ["rkt", "fetch", labelValue "schema" labels ++ name ++ ":" ++ labelValue "version" labels]
        ++ (if labelValue "schema" labels = "docker://" then ["--insecure-options=image"]
            else []) := by
  unfold fetchArgs
  simp only [scanLabels_spec, labelValue]
  split <;> simp

theorem fetchImagesLoop_append (env : Env) (pre post : List RuntimeApp) (tr : List Event)
    (h : (fetchImagesLoop env tr pre).2.2 = .ok ()) :
    fetchImagesLoop env tr (pre ++ post) =
      ((fetchImagesLoop env tr pre).1 ++
          (fetchImagesLoop env (fetchImagesLoop env tr pre).2.1 post).1,
        (fetchImagesLoop env (fetchImagesLoop env tr pre).2.1 post).2.1,
        (fetchImagesLoop env (fetchImagesLoop env tr pre).2.1 post).2.2) := by
  induction pre generalizing tr with
  | nil => rfl
  | cons app rest ih =>
    simp only [List.cons_append, fetchImagesLoop] at h ⊢
    split at h
    · split at h
      · cases h
      · split at h
        · cases h
        · split at h
          · cases h
          · split at h
            · cases h
            · simp_all
    · simp_all

theorem fetchImagesLoop_trace (env : Env) (apps : List RuntimeApp) (tr : List Event) :
    ∃ more, (fetchImagesLoop env tr apps).2.1 = tr ++ more := by
  induction apps generalizing tr with
  | nil => exact ⟨[], by simp [fetchImagesLoop]⟩
  | cons app rest ih =>
    simp only [fetchImagesLoop]
    split
    · split
      · exact ⟨[], by simp⟩
      · split
        · exact ⟨_, rfl⟩
        · split
          · exact ⟨_, rfl⟩
          · split
            · exact ⟨_, rfl⟩
            · obtain ⟨more, hm⟩ := ih (tr ++ [Event.exec "sudo"
                (fetchArgs ‹String› app.Image.Labels) []])
              exact ⟨Event.exec "sudo" (fetchArgs ‹String› app.Image.Labels) [] :: more,
                by simp [hm]⟩
    · exact ih tr

theorem fetchImagesLoop_head (env : Env) (tr : List Event) (app : RuntimeApp)
    (post : List RuntimeApp) (name : String)
    (hid : app.Image.ID.Empty = true) (hname : app.Image.Name = some name) :
    ∃ after, (fetchImagesLoop env tr (app :: post)).2.1 =
      tr ++ Event.exec "sudo" (fetchArgs name app.Image.Labels) [] :: after := by
  simp only [fetchImagesLoop, hid, hname, if_true]
  split
  · exact ⟨[], rfl⟩
  · split
    · exact ⟨[], rfl⟩
    · split
      · exact ⟨[], rfl⟩
      · obtain ⟨more, hmore⟩ := fetchImagesLoop_trace env post
          (tr ++ [Event.exec "sudo" (fetchArgs name app.Image.Labels) []])
        exact ⟨more, by simp [hmore]⟩

/-- C4: whenever the loop of `fetchImages` reaches an app whose image ID is
empty (the apps before it were handled without error) and which has an image
name, the next child process is `sudo` with the arguments `rkt`, `fetch`, `R`,
where `R` is the value of the label named `schema` (empty when absent), the
image name, a colon and the value of the label named `version` (empty when
absent), followed by `--insecure-options=image` exactly when the schema is
`docker://`. For name `foo`, schema `docker://` and version `latest` the
arguments are `rkt fetch docker://foo:latest --insecure-options=image`. -/
theorem fetchImages_command (env : Env) (tr : List Event) (m : PodManifest)
    (pre post : List RuntimeApp) (app : RuntimeApp) (name : String)
    (hm : m.Apps = pre ++ app :: post)
    (hreach : (fetchImagesLoop env tr pre).2.2 = .ok ())
    (hid : app.Image.ID.Empty = true) (hname : app.Image.Name = some name) :
    (∃ after, (fetchImages env tr m).2.1 =
      (fetchImagesLoop env tr pre).2.1 ++
        Event.exec "sudo"
          (["rkt", "fetch",
              labelValue "schema" app.Image.Labels ++ name ++ ":" ++
                labelValue "version" app.Image.Labels]
            ++ (if labelValue "schema" app.Image.Labels = "docker://"
                then ["--insecure-options=image"] else [])) []
          :: after) ∧
      fetchArgs "foo"
          [{ Name := "schema", Value := "docker://" }, { Name := "version", Value := "latest" }]
        = ["rkt", "fetch", "docker://foo:latest", "--insecure-options=image"] := by
  refine ⟨?_, by decide⟩
  obtain ⟨after, hafter⟩ :=
    fetchImagesLoop_head env (fetchImagesLoop env tr pre).2.1 app post name hid hname
  refine ⟨after, ?_⟩
  rw [← fetchArgs_spec, ← hafter]
  simp only [fetchImages, hm]
  rw [fetchImagesLoop_append env pre (app :: post) tr hreach]

theorem fetchImages_command_witness :
    sampleManifest.Apps = [] ++ sampleApp :: [resolvedApp] ∧
      (fetchImagesLoop sampleEnv [] []).2.2 = .ok () ∧
      sampleApp.Image.ID.Empty = true ∧ sampleApp.Image.Name = some "foo" ∧
      ∃ after, (fetchImages sampleEnv [] sampleManifest).2.1 =
        [] ++ Event.exec "sudo"
          ["rkt", "fetch", "docker://foo:latest", "--insecure-options=image"] [] :: after :=
  ⟨by decide, by decide, by decide, by decide,
    (fetchImages_command sampleEnv [] sampleManifest [] [resolvedApp] sampleApp "foo"
      (by decide) (by decide) (by decide) (by decide)).1⟩

/-! ### Path normalisation -/

theorem dropWhile_length_le {α : Type} (p : α → Bool) (l : List α) :
    (l.dropWhile p).length ≤ l.length := by
  induction l with
  | nil => simp
  | cons a rest ih =>
    simp only [List.dropWhile_cons]
    split
    · exact Nat.le_succ_of_le ih
    · exact Nat.le_refl _

/-- The fuel given to `cleanLoop` by `Clean` is enough: any two amounts of fuel
that are at least the number of bytes left give the same result, so the loop
always runs until the input is used up. -/
theorem cleanLoop_fuel (rooted : Bool) (f1 f2 : Nat) (rest out : List Char) (dotdot : Nat)
    (h1 : rest.length ≤ f1) (h2 : rest.length ≤ f2) :
    cleanLoop rooted f1 rest out dotdot = cleanLoop rooted f2 rest out dotdot := by
  induction f1 generalizing f2 rest out dotdot with
  | zero =>
    have hr : rest = [] := List.length_eq_zero.mp (Nat.le_zero.mp h1)
    subst hr
    cases f2 <;> rfl
  | succ f1 ih =>
    cases rest with
    | nil => cases f2 <;> rfl
    | cons c rest =>
      cases f2 with
      | zero => simp at h2
      | succ f2 =>
        have hl1 : rest.length ≤ f1 := Nat.le_of_succ_le_succ h1
        have hl2 : rest.length ≤ f2 := Nat.le_of_succ_le_succ h2
        have ht : rest.tail.length ≤ rest.length := by simp
        unfold cleanLoop
        split
        · exact ih f2 rest out dotdot hl1 hl2
        · split
          · exact ih f2 rest out dotdot hl1 hl2
          · split
            · split
              · exact ih f2 _ _ _ (by omega) (by omega)
              · split
                · exact ih f2 _ _ _ (by omega) (by omega)
                · exact ih f2 _ _ _ (by omega) (by omega)
            · rename_i hc _ _
              have hd : ((c :: rest).dropWhile (fun x => x != '/')).length ≤ rest.length := by
                have hp : (c != '/') = true := by simpa using hc
                rw [List.dropWhile_cons, if_pos hp]
                exact dropWhile_length_le _ rest
              exact ih f2 _ _ _ (by omega) (by omega)

theorem backtrack_ge (out : List Char) (dotdot w : Nat) (h : dotdot ≤ w) :
    dotdot ≤ backtrack out dotdot w := by
  induction w with
  | zero => simpa [backtrack] using h
  | succ w ih =>
    unfold backtrack
    split
    · rename_i hc
      exact ih (Nat.lt_succ_iff.mp hc.1)
    · exact h

theorem cleanLoop_rooted (fuel : Nat) (rest out : List Char)
    (h : out.head? = some '/') :
    (cleanLoop true fuel rest out 1).head? = some '/' := by
  induction fuel generalizing rest out with
  | zero => simpa [cleanLoop] using h
  | succ fuel ih =>
    cases rest with
    | nil => simpa [cleanLoop] using h
    | cons c rest =>
      have hne : out ≠ [] := by
        intro h0
        rw [h0] at h
        cases h
      unfold cleanLoop
      split
      · exact ih _ _ h
      · split
        · exact ih _ _ h
        · split
          · split
            · rename_i hlt
              apply ih
              have hb := backtrack_ge out 1 (out.length - 1) (by omega)
              rw [List.head?_take]
              rw [if_neg (by omega)]
              exact h
            · split
              · rename_i hr
                cases hr
              · exact ih _ _ h
          · apply ih
            split
            · rw [List.append_assoc, List.head?_append_of_ne_nil _ hne]
              exact h
            · rw [List.head?_append_of_ne_nil _ hne]
              exact h

theorem IsAbs_Clean (path : String) (h : IsAbs path = true) : IsAbs (Clean path) = true := by
  have hd : path.data.head? = some '/' := by simpa [IsAbs] using h
  have hne : path ≠ "" := by
    intro h0
    rw [h0] at hd
    cases hd
  have hloop := cleanLoop_rooted path.data.length path.data.tail ['/'] rfl
  have hout : cleanLoop true path.data.length path.data.tail ['/'] 1 ≠ [] := by
    intro h0
    rw [h0] at hloop
    cases hloop
  unfold Clean
  simp only [hne, if_false, hd, if_true, hout, IsAbs, hloop, decide_True]

theorem IsAbs_Join (wd path : String) (h : IsAbs wd = true) :
    IsAbs (Join [wd, path]) = true := by
  have hd : wd.data.head? = some '/' := by simpa [IsAbs] using h
  have hne : wd ≠ "" := by
    intro h0
    rw [h0] at hd
    cases hd
  have hdne : wd.data ≠ [] := by
    intro h0
    rw [h0] at hd
    cases hd
  simp only [Join, hne, ne_eq, not_false_eq_true, if_true]
  apply IsAbs_Clean
  simp only [IsAbs, String.intercalate, String.intercalate.go, String.data_append,
    decide_eq_true_eq]
  rw [List.append_assoc, List.head?_append_of_ne_nil _ hdne]
  exact hd

theorem IsAbs_Abs (getwd : Except String String) (path res : String)
    (hwd : ∀ wd, getwd = .ok wd → IsAbs wd = true)
    (h : Abs getwd path = .ok res) : IsAbs res = true := by
  unfold Abs at h
  by_cases habs : IsAbs path = true
  · rw [if_pos habs] at h
    cases h
    exact IsAbs_Clean path habs
  · rw [if_neg habs] at h
    cases hg : getwd with
    | error e =>
      rw [hg] at h
      cases h
    | ok wd =>
      rw [hg] at h
      cases h
      exact IsAbs_Join wd path (hwd wd hg)

theorem makeVolumeSourcesAbsoluteLoop_spec (env : Env) (basePath : String)
    (vols : List Volume)
    (hok : (makeVolumeSourcesAbsoluteLoop env basePath vols).2 = .ok ()) :
    List.Forall₂ (VolumeNormalized env basePath) vols
      (makeVolumeSourcesAbsoluteLoop env basePath vols).1 := by
  induction vols with
  | nil => exact List.Forall₂.nil
  | cons v rest ih =>
    unfold makeVolumeSourcesAbsoluteLoop at hok ⊢
    by_cases habs : IsAbs v.Source = false
    · rw [if_pos habs] at hok ⊢
      cases hA : Abs env.getwd (Join [basePath, v.Source]) with
      | error e =>
        rw [hA] at hok
        cases hok
      | ok path =>
        rw [hA] at hok
        refine List.Forall₂.cons ⟨rfl, rfl, ?_, fun _ => hA⟩ (ih hok)
        intro ht
        rw [habs] at ht
        cases ht
    · rw [if_neg habs] at hok ⊢
      refine List.Forall₂.cons ⟨rfl, rfl, fun _ => rfl, ?_⟩ (ih hok)
      intro hf
      exact absurd hf habs

/-- C2: when `makeVolumeSourcesAbsolute` returns without error, the volumes of
the result correspond one to one and in order to the volumes of the input; a
volume whose source was absolute is unchanged, and a volume whose source `p`
was relative differs only in its source, which is the result of
`filepath.Abs(filepath.Join(basePath, p))`; the apps and the remaining fields
are untouched. With base path `/srv` and source `data` that result is
`/srv/data`, whatever the working directory. -/
theorem makeVolumeSourcesAbsolute_spec (env : Env) (basePath : String) (m : PodManifest)
    (hok : (makeVolumeSourcesAbsolute env basePath m).2 = .ok ()) :
    List.Forall₂ (VolumeNormalized env basePath) m.Volumes
        (makeVolumeSourcesAbsolute env basePath m).1.Volumes ∧
      (makeVolumeSourcesAbsolute env basePath m).1.Apps = m.Apps ∧
      (makeVolumeSourcesAbsolute env basePath m).1.other = m.other ∧
      Abs env.getwd (Join ["/srv", "data"]) = .ok "/srv/data" :=
  ⟨makeVolumeSourcesAbsoluteLoop_spec env basePath m.Volumes hok, rfl, rfl, rfl⟩

theorem makeVolumeSourcesAbsolute_spec_witness :
    (makeVolumeSourcesAbsolute sampleEnv "/srv" sampleManifest).2 = .ok () ∧
      (makeVolumeSourcesAbsolute sampleEnv "/srv" sampleManifest).1.Volumes =
        [{ Name := "data", Source := "/srv/data", other := [] },
          { Name := "logs", Source := "/var/log", other := [] }] ∧
      List.Forall₂ (VolumeNormalized sampleEnv "/srv") sampleManifest.Volumes
        (makeVolumeSourcesAbsolute sampleEnv "/srv" sampleManifest).1.Volumes :=
  ⟨by decide, by decide,
    (makeVolumeSourcesAbsolute_spec sampleEnv "/srv" sampleManifest (by decide)).1⟩

/-! ### The pipeline as a whole -/

theorem fetchImagesLoop_resolves (env : Env) (apps : List RuntimeApp) (tr : List Event)
    (hhash : ∀ js h, env.unmarshalHash js = .ok h → h.Empty = false)
    (hok : (fetchImagesLoop env tr apps).2.2 = .ok ()) :
    List.Forall₂ (fun a b => b.Image.ID.Empty = false ∧ b.App = a.App) apps
      (fetchImagesLoop env tr apps).1 := by
  induction apps generalizing tr with
  | nil => exact List.Forall₂.nil
  | cons app rest ih =>
    unfold fetchImagesLoop at hok ⊢
    by_cases hid : app.Image.ID.Empty = true
    · rw [if_pos hid] at hok ⊢
      cases hn : app.Image.Name with
      | none =>
        rw [hn] at hok
        cases hok
      | some name =>
        simp only [hn] at hok ⊢
        cases hr : (env.run tr "sudo" (fetchArgs name app.Image.Labels) []).err with
        | some e =>
          simp only [hr] at hok
          cases hok
        | none =>
          simp only [hr] at hok ⊢
          cases hq : quoteOutput (env.run tr "sudo" (fetchArgs name app.Image.Labels) []).stdout with
          | none =>
            simp only [hq] at hok
            cases hok
          | some js =>
            simp only [hq] at hok ⊢
            cases hu : env.unmarshalHash js with
            | error e =>
              simp only [hu] at hok
              cases hok
            | ok h =>
              simp only [hu] at hok ⊢
              exact List.Forall₂.cons ⟨hhash js h hu, rfl⟩ (ih _ hok)
    · rw [if_neg hid] at hok ⊢
      refine List.Forall₂.cons ⟨?_, rfl⟩ (ih _ hok)
      simpa using hid

theorem makeVolumeSourcesAbsoluteLoop_abs (env : Env) (basePath : String)
    (vols : List Volume)
    (hwd : ∀ wd, env.getwd = .ok wd → IsAbs wd = true)
    (hok : (makeVolumeSourcesAbsoluteLoop env basePath vols).2 = .ok ()) :
    ∀ w ∈ (makeVolumeSourcesAbsoluteLoop env basePath vols).1, IsAbs w.Source = true := by
  induction vols with
  | nil => intro w hw; cases hw
  | cons v rest ih =>
    unfold makeVolumeSourcesAbsoluteLoop at hok ⊢
    by_cases habs : IsAbs v.Source = false
    · rw [if_pos habs] at hok ⊢
      cases hA : Abs env.getwd (Join [basePath, v.Source]) with
      | error e =>
        rw [hA] at hok
        cases hok
      | ok path =>
        rw [hA] at hok
        intro w hw
        rcases List.mem_cons.mp hw with rfl | hw
        · exact IsAbs_Abs env.getwd _ _ hwd hA
        · exact ih hok w hw
    · rw [if_neg habs] at hok ⊢
      intro w hw
      rcases List.mem_cons.mp hw with rfl | hw
      · simpa using habs
      · exact ih hok w hw

theorem makeUserAndGroupValidLoop_filled (apps : List RuntimeApp)
    (hok : ∀ e, (makeUserAndGroupValidLoop apps).2 ≠ .crash e) :
    List.Forall₂ (fun a b => b.Image = a.Image ∧
        ∃ y, b.App = some y ∧ y.User ≠ "" ∧ y.Group ≠ "") apps
      (makeUserAndGroupValidLoop apps).1 := by
  induction apps with
  | nil => exact List.Forall₂.nil
  | cons app rest ih =>
    unfold makeUserAndGroupValidLoop at hok ⊢
    cases hA : app.App with
    | none =>
      simp only [hA] at hok
      exact absurd rfl (hok _)
    | some x =>
      simp only [hA] at hok ⊢
      refine List.Forall₂.cons ⟨rfl, _, rfl, ?_, ?_⟩ (ih hok)
      · by_cases hu : x.User = "" <;> by_cases hg : x.Group = "" <;> simp [hu, hg]
      · by_cases hu : x.User = "" <;> by_cases hg : x.Group = "" <;> simp [hu, hg]

theorem forall₂_mem_right {α β : Type} {R : α → β → Prop} {l1 : List α} {l2 : List β}
    (h : List.Forall₂ R l1 l2) : ∀ b ∈ l2, ∃ a ∈ l1, R a b := by
  induction h with
  | nil => intro b hb; cases hb
  | cons hab _ ih =>
    intro b hb
    rcases List.mem_cons.mp hb with rfl | hb
    · exact ⟨_, List.mem_cons_self _ _, hab⟩
    · obtain ⟨a, ha, hr⟩ := ih b hb
      exact ⟨a, List.mem_cons_of_mem _ ha, hr⟩

/-- C5: assuming that `UnmarshalJSON` only ever yields a non-empty hash and that
`os.Getwd` only ever yields an absolute path, a manifest returned by
`prepareManifest` without error has, for every app, a non-empty image ID and an
execution section with non-empty user and group, and every volume of it has an
absolute source. -/
theorem prepareManifest_normalized (env : Env) (cfg : Config) (tr tr1 : List Event)
    (m : PodManifest)
    (hhash : ∀ js h, env.unmarshalHash js = .ok h → h.Empty = false)
    (hwd : ∀ wd, env.getwd = .ok wd → IsAbs wd = true)
    (h : prepareManifest env cfg tr = (tr1, .ok m)) :
    (∀ a ∈ m.Apps, a.Image.ID.Empty = false ∧
        ∃ x, a.App = some x ∧ x.User ≠ "" ∧ x.Group ≠ "") ∧
      ∀ v ∈ m.Volumes, IsAbs v.Source = true := by
  unfold prepareManifest at h
  split at h
  · cases h
  · rename_i trA template hread
    split at h
    · cases h
    · cases h
    · cases h
    · rename_i m1 trB u hfetch
      split at h
      · cases h
      · cases h
      · cases h
      · rename_i m2 u2 hvol
        split at h
        · cases h
        · cases h
        · rename_i m3 r3 hcrash hfatal hug
          cases h
          have hf1 : (fetchImagesLoop env trA template.Apps).2.2 = .ok () :=
            congrArg (fun r => r.2.2) hfetch
          have hm1 : (fetchImagesLoop env trA template.Apps).1 = m1.Apps :=
            congrArg (fun r => r.1.Apps) hfetch
          have hv1 : (makeVolumeSourcesAbsoluteLoop env cfg.basePath m1.Volumes).2 = .ok () :=
            congrArg (fun r => r.2) hvol
          have hm2a : m1.Apps = m2.Apps := congrArg (fun r => r.1.Apps) hvol
          have hm2v : (makeVolumeSourcesAbsoluteLoop env cfg.basePath m1.Volumes).1
              = m2.Volumes := congrArg (fun r => r.1.Volumes) hvol
          have hma : (makeUserAndGroupValidLoop m2.Apps).1 = m.Apps :=
            congrArg (fun r => r.1.Apps) hug
          have hmv : m2.Volumes = m.Volumes := congrArg (fun r => r.1.Volumes) hug
          have hr3 : (makeUserAndGroupValidLoop m2.Apps).2 = r3 :=
            congrArg (fun r => r.2) hug
          have hres := fetchImagesLoop_resolves env template.Apps trA hhash hf1
          rw [hm1, hm2a] at hres
          have hfill := makeUserAndGroupValidLoop_filled m2.Apps
            (fun e he => hcrash e (hr3.symm.trans he))
          rw [hma] at hfill
          have habs := makeVolumeSourcesAbsoluteLoop_abs env cfg.basePath m1.Volumes hwd hv1
          rw [hm2v, hmv] at habs
          refine ⟨?_, habs⟩
          intro b hb
          obtain ⟨a, ha, himg, hy⟩ := forall₂_mem_right hfill b hb
          obtain ⟨a0, _, hid, _⟩ := forall₂_mem_right hres a ha
          refine ⟨?_, hy⟩
          rw [himg]
          exact hid

theorem prepareManifest_normalized_witness :
    (∀ js h, sampleEnv.unmarshalHash js = .ok h → h.Empty = false) ∧
      (∀ wd, sampleEnv.getwd = .ok wd → IsAbs wd = true) ∧
      prepareManifest sampleEnv sampleConfig [] =
        ([Event.openFile "pod-template.yaml",
            Event.exec "sudo"
              ["rkt", "fetch", "docker://foo:latest", "--insecure-options=image"] []],
          .ok preparedManifest) ∧
      (∀ a ∈ preparedManifest.Apps, a.Image.ID.Empty = false ∧
        ∃ x, a.App = some x ∧ x.User ≠ "" ∧ x.Group ≠ "") ∧
      ∀ v ∈ preparedManifest.Volumes, IsAbs v.Source = true :=
  have hhash : ∀ js h, sampleEnv.unmarshalHash js = .ok h → h.Empty = false := by
    intro js h hh
    simp only [sampleEnv] at hh
    split at hh
    · cases hh
      rfl
    · cases hh
  have hwd : ∀ wd, sampleEnv.getwd = .ok wd → IsAbs wd = true := by
    intro wd hw
    cases hw
    rfl
  ⟨hhash, hwd, by decide,
    prepareManifest_normalized sampleEnv sampleConfig []
      [Event.openFile "pod-template.yaml",
        Event.exec "sudo"
          ["rkt", "fetch", "docker://foo:latest", "--insecure-options=image"] []]
      preparedManifest hhash hwd (by decide)⟩

/-! ### Start-up and dispatch -/

theorem selectCommand_unknown (a : String) (h : a ∉ knownWords) :
    selectCommand a = .unknown := by
  simp only [knownWords, List.mem_cons, List.mem_singleton, List.not_mem_nil, or_false,
    not_or] at h
  obtain ⟨h1, h2, h3, h4, h5, h6, h7, h8⟩ := h
  simp [selectCommand, h1, h2, h3, h4, h5, h6, h7, h8]

/-- C8: when the argument vector consists of the program name alone, or its
first argument is none of `compile`, `run`, `start`, `stop`, `status`, `logs`,
`-h`, `--help`, the process ends in `log.Fatal` with exit status 1 and an empty
trace: no flag was parsed, no file opened or created and no child process
started. -/
theorem program_rejects_unknown (env : Env) (args : List String)
    (h : args.length = 1 ∨ ∃ a, args[1]? = some a ∧ a ∉ knownWords) :
    program env args = ([], .fatal usageError) ∧ (program env args).2.code = 1 := by
  have hinit : init env args = ([], .fatal usageError) := by
    unfold init
    rcases h with h | ⟨a, ha, hk⟩
    · rw [if_pos h]
    · have hlen : ¬ args.length = 1 := by
        intro h1
        have := List.getElem?_eq_none (l := args) (n := 1) (by omega)
        rw [this] at ha
        cases ha
      rw [if_neg hlen, ha]
      simp only [selectCommand_unknown a hk]
  have hp : program env args = ([], .fatal usageError) := by
    unfold program
    rw [hinit]
  rw [hp]
  exact ⟨rfl, rfl⟩

theorem program_rejects_unknown_witness :
    (["pod-runner", "restart", "-n", "web"].length = 1 ∨
        ∃ a, ["pod-runner", "restart", "-n", "web"][1]? = some a ∧ a ∉ knownWords) ∧
      (["pod-runner"].length = 1 ∨ ∃ a, ["pod-runner"][1]? = some a ∧ a ∉ knownWords) ∧
      program sampleEnv ["pod-runner", "restart", "-n", "web"] = ([], .fatal usageError) ∧
      program sampleEnv ["pod-runner"] = ([], .fatal usageError) :=
  ⟨Or.inr ⟨"restart", rfl, by decide⟩, Or.inl rfl,
    (program_rejects_unknown sampleEnv ["pod-runner", "restart", "-n", "web"]
      (Or.inr ⟨"restart", rfl, by decide⟩)).1,
    (program_rejects_unknown sampleEnv ["pod-runner"] (Or.inl rfl)).1⟩

/-- C7 (as stated, refuted): in stop mode with pod name `web`, when the
stop / reset-failed script ends with a non-zero exit status, the tool itself
ends in `log.Fatal` with exit status 1. -/
theorem stop_mode_failure_is_fatal :
    (failingEnv.run [Event.parseFlags ["-n", "web"]] "sudo"
        ["bash", "-c", stopScript "web"] []).err = some "exit status 1" ∧
      program failingEnv ["pod-runner", "stop", "-n", "web"] =
        ([Event.parseFlags ["-n", "web"],
            Event.exec "sudo" ["bash", "-c",
              "systemctl stop web.service; systemctl reset-failed web.service;"] []],
          Exit.fatal "exit status 1") ∧
      (program failingEnv ["pod-runner", "stop", "-n", "web"]).2.code ≠ 0 := by
  refine ⟨rfl, by decide, by decide⟩

/-- C7 (amended): in stop mode the tool runs the stop / reset-failed script
once, as `sudo bash -c`, and does nothing else; it finishes successfully when
the script ends with exit status zero and ends in `log.Fatal` with the error of
the script otherwise, so its exit status is zero exactly when the script
reported no error. -/
theorem stop_mode_outcome (env : Env) (cfg : Config) (tr : List Event)
    (h : cfg.command = .Stop) :
    main env cfg tr =
        (tr ++ [Event.exec "sudo" ["bash", "-c", stopScript cfg.podName] []],
          match (env.run tr "sudo" ["bash", "-c", stopScript cfg.podName] []).err with
          | none => Exit.success
          | some e => Exit.fatal e) ∧
      ((main env cfg tr).2.code = 0 ↔
        (env.run tr "sudo" ["bash", "-c", stopScript cfg.podName] []).err = none) := by
  have hmain : main env cfg tr =
      (tr ++ [Event.exec "sudo" ["bash", "-c", stopScript cfg.podName] []],
        match (env.run tr "sudo" ["bash", "-c", stopScript cfg.podName] []).err with
        | none => Exit.success
        | some e => Exit.fatal e) := by
    unfold main
    rw [h]
    simp only [stop]
    cases (env.run tr "sudo" ["bash", "-c", stopScript cfg.podName] []).err <;> rfl
  refine ⟨hmain, ?_⟩
  rw [hmain]
  cases (env.run tr "sudo" ["bash", "-c", stopScript cfg.podName] []).err <;>
    simp [Exit.code]

theorem stop_mode_outcome_witness :
    ({ sampleConfig with command := .Stop, podName := "web" } : Config).command = .Stop ∧
      (main sampleEnv { sampleConfig with command := .Stop, podName := "web" } []).2
        = Exit.success ∧
      (main failingEnv { sampleConfig with command := .Stop, podName := "web" } []).2
        = Exit.fatal "exit status 1" :=
  ⟨rfl,
    (congrArg Prod.snd
      (stop_mode_outcome sampleEnv { sampleConfig with command := .Stop, podName := "web" }
        [] rfl).1).trans (by decide),
    (congrArg Prod.snd
      (stop_mode_outcome failingEnv { sampleConfig with command := .Stop, podName := "web" }
        [] rfl).1).trans (by decide)⟩

theorem findDashDash_first (args : List String) (i : Nat) (h : FirstDashDashAt args i) :
    findDashDash args = some i := by
  induction args generalizing i with
  | nil =>
    have := h.1
    simp at this
  | cons a rest ih =>
    cases i with
    | zero =>
      have h0 : a = "--" := by simpa using h.1
      simp [findDashDash, h0]
    | succ i =>
      have ha : a ≠ "--" := by
        have := h.2 0 (Nat.succ_pos i)
        simpa using this
      have hrest : FirstDashDashAt rest i := by
        refine ⟨by simpa using h.1, ?_⟩
        intro j hj
        have := h.2 (j + 1) (Nat.succ_lt_succ hj)
        simpa using this
      simp [findDashDash, ha, ih i hrest]

theorem findDashDash_none (args : List String) (h : ∀ a ∈ args, a ≠ "--") :
    findDashDash args = none := by
  induction args with
  | nil => rfl
  | cons a rest ih =>
    have ha : a ≠ "--" := h a (List.mem_cons_self _ _)
    simp [findDashDash, ha, ih (fun b hb => h b (List.mem_cons_of_mem _ hb))]

theorem selectCommand_subcommand (a : String) (h : a ∈ subcommands) :
    ∃ c, selectCommand a = .command c := by
  simp only [subcommands, List.mem_cons, List.mem_singleton, List.not_mem_nil,
    or_false] at h
  rcases h with rfl | rfl | rfl | rfl | rfl | rfl
  · exact ⟨.Compile, by decide⟩
  · exact ⟨.Run, by decide⟩
  · exact ⟨.Start, by decide⟩
  · exact ⟨.Stop, by decide⟩
  · exact ⟨.Status, by decide⟩
  · exact ⟨.Logs, by decide⟩

theorem init_split (env : Env) (args front passthrough : List String) (a1 : String)
    (c : CommandType) (h1 : args[1]? = some a1) (hc : selectCommand a1 = .command c)
    (hsplit : (match findDashDash args with
        | some idx => (args.take idx, args.drop (idx + 1))
        | none => (args, [])) = (front, passthrough))
    (hlen : 2 ≤ front.length) :
    (init env args).1 = [Event.parseFlags (front.drop 2)] ∧
      ∀ cfg, (init env args).2 = .ok cfg →
        cfg.additionalFlags = passthrough ∧ cfg.command = c := by
  have hl : ¬ args.length = 1 := by
    intro hl1
    have := List.getElem?_eq_none (l := args) (n := 1) (by omega)
    rw [this] at h1
    cases h1
  have hnl : ¬ front.length < 2 := by omega
  unfold init
  rw [if_neg hl, h1]
  simp only [hc, hsplit, hnl, if_false]
  cases env.parseFlags (front.drop 2) with
  | exited code => exact ⟨rfl, fun cfg h => by cases h⟩
  | failed msg => exact ⟨rfl, fun cfg h => by cases h⟩
  | parsed f =>
    simp only
    split
    · exact ⟨rfl, fun cfg h => by cases h⟩
    · refine ⟨rfl, fun cfg h => ?_⟩
      cases h
      exact ⟨rfl, rfl⟩

theorem init_ok_command (env : Env) (args : List String) (a1 : String) (cfg : Config)
    (h1 : args[1]? = some a1) (h : (init env args).2 = .ok cfg) :
    selectCommand a1 = .command cfg.command := by
  unfold init at h
  split at h
  · cases h
  · rw [h1] at h
    simp only at h
    cases hs : selectCommand a1 with
    | help =>
      rw [hs] at h
      cases h
    | unknown =>
      rw [hs] at h
      cases h
    | command c =>
      rw [hs] at h
      simp only at h
      split at h
      · cases h
      · split at h
        · cases h
        · cases h
        · split at h
          · cases h
          · cases h
            rfl

/-- C9: with a subcommand at position 1 and the first `--` at a position
`i ≥ 2`, the only flag parsing is that of the arguments at positions 2 to
`i - 1`, and the passthrough list of any configuration `init` returns is the
list of arguments after position `i`; without any `--` all arguments from
position 2 on are parsed and the passthrough list is empty. In run mode, once
the manifest is prepared and encoded, the last action of the process is the
child process `sudo rkt run --pod-manifest=/dev/stdin` followed by exactly the
passthrough list. -/
theorem passthrough_flags (env : Env) (args : List String) (a1 : String)
    (h1 : args[1]? = some a1) (hsub : a1 ∈ subcommands) :
    (∀ i, 2 ≤ i → FirstDashDashAt args i →
        (init env args).1 = [Event.parseFlags ((args.take i).drop 2)] ∧
        ∀ cfg, (init env args).2 = .ok cfg → cfg.additionalFlags = args.drop (i + 1)) ∧
      ((∀ a ∈ args, a ≠ "--") →
        (init env args).1 = [Event.parseFlags (args.drop 2)] ∧
        ∀ cfg, (init env args).2 = .ok cfg → cfg.additionalFlags = []) ∧
      (a1 = "run" → ∀ cfg, (init env args).2 = .ok cfg →
        ∀ tr1 m buff, prepareManifest env cfg (init env args).1 = (tr1, .ok m) →
          env.encode false m = .ok buff →
          (program env args).1 = tr1 ++ [Event.exec "sudo"
            (["rkt", "run", "--pod-manifest=/dev/stdin"] ++ cfg.additionalFlags) buff]) := by
  obtain ⟨c, hc⟩ := selectCommand_subcommand a1 hsub
  have hlen2 : 2 ≤ args.length := by
    by_contra hcon
    have := List.getElem?_eq_none (l := args) (n := 1) (by omega)
    rw [this] at h1
    cases h1
  refine ⟨?_, ?_, ?_⟩
  · intro i hi hfirst
    have hil : i < args.length := by
      by_contra hcon
      have hnone := List.getElem?_eq_none (l := args) (n := i) (by omega)
      have hsome := hfirst.1
      rw [hnone] at hsome
      cases hsome
    have hsplit : (match findDashDash args with
        | some idx => (args.take idx, args.drop (idx + 1))
        | none => (args, [])) = (args.take i, args.drop (i + 1)) := by
      rw [findDashDash_first args i hfirst]
    have hl : 2 ≤ (args.take i).length := by
      rw [List.length_take]
      omega
    have hs := init_split env args _ _ a1 c h1 hc hsplit hl
    exact ⟨hs.1, fun cfg hcfg => (hs.2 cfg hcfg).1⟩
  · intro hnone
    have hsplit : (match findDashDash args with
        | some idx => (args.take idx, args.drop (idx + 1))
        | none => (args, [])) = (args, []) := by
      rw [findDashDash_none args hnone]
    have hs := init_split env args _ _ a1 c h1 hc hsplit hlen2
    exact ⟨hs.1, fun cfg hcfg => (hs.2 cfg hcfg).1⟩
  · intro hrun cfg hcfg tr1 m buff hprep henc
    have hcmd : cfg.command = .Run := by
      have := init_ok_command env args a1 cfg h1 hcfg
      rw [hrun] at this
      have h2 : selectCommand "run" = .command .Run := by decide
      rw [h2] at this
      injection this with h3
      exact h3.symm
    have hi : init env args = ((init env args).1, .ok cfg) := Prod.ext rfl hcfg
    unfold program
    rw [hi]
    simp only
    unfold main
    rw [hcmd]
    simp only [hprep]
    unfold runForeground
    simp only [henc]
    cases (env.run tr1 "sudo"
      (["rkt", "run", "--pod-manifest=/dev/stdin"] ++ cfg.additionalFlags) buff).err <;> rfl

theorem passthrough_flags_witness :
    ["pod-runner", "run", "-b", "/srv", "--", "--net=host", "--"][1]? = some "run" ∧
      "run" ∈ subcommands ∧
      FirstDashDashAt ["pod-runner", "run", "-b", "/srv", "--", "--net=host", "--"] 4 ∧
      (init sampleEnv ["pod-runner", "run", "-b", "/srv", "--", "--net=host", "--"]).1
        = [Event.parseFlags ["-b", "/srv"]] ∧
      (program sampleEnv ["pod-runner", "run", "-b", "/srv", "--", "--net=host", "--"]).1 =
        [Event.parseFlags ["-b", "/srv"], Event.openFile "pod-template.yaml",
          Event.exec "sudo"
            ["rkt", "fetch", "docker://foo:latest", "--insecure-options=image"] []] ++
        [Event.exec "sudo" (["rkt", "run", "--pod-manifest=/dev/stdin"] ++ ["--net=host", "--"])
          [123, 125, 10]] :=
  have hfirst :
      FirstDashDashAt ["pod-runner", "run", "-b", "/srv", "--", "--net=host", "--"] 4 := by
    refine ⟨rfl, ?_⟩
    intro j hj
    have hcases : j = 0 ∨ j = 1 ∨ j = 2 ∨ j = 3 := by omega
    rcases hcases with rfl | rfl | rfl | rfl <;> decide
  have h := passthrough_flags sampleEnv
    ["pod-runner", "run", "-b", "/srv", "--", "--net=host", "--"] "run" rfl (by decide)
  ⟨rfl, by decide, hfirst, (h.1 4 (by decide) hfirst).1,
    h.2.2 rfl
      { templatePath := "pod-template.yaml", basePath := "/srv", podName := "web",
        slice := "", outfile := "/dev/stdout", command := .Run,
        additionalFlags := ["--net=host", "--"] }
      (by decide) _ preparedManifest [123, 125, 10] (by decide) (by decide)⟩

end PodRunner
